import Mathlib

/-!
Verification development for the Aldi prospekt archive core
(`src/aldi_scraper.py`, class `AldiProspektScraper`).

The embedding models the archive-consistency subsystem: the metadata store
(`_load_metadata`, `_save_metadata`), the classifier
(`_extract_prospekt_info`), the content hasher (`_get_file_hash`) and the
download/deduplication routine (`download_pdf`), together with the run loop
over discovered flyers.

Modelling conventions:
- Python dicts become insertion-ordered association lists (`dictGet`,
  `dictSet`), matching CPython dict iteration and update-in-place semantics.
- The filesystem is an association list from paths to file states; a file
  write is two atomic steps (truncate, then the full content), so that an
  interruption between them leaves a truncated file.  Every filesystem
  mutation is also recorded in an action trace, and crash states are
  prefixes of that trace.
- JSON (de)serialisation is modelled as the identity: the metadata file
  stores a `Metadata` value directly; a malformed or truncated file is any
  other file state.
- `hashlib.md5`/`hashlib.sha256` are modelled as injective taggings of
  their input; the source decides content equality solely by digest
  equality, so collision freedom is the intended reading (spec 4.1).
- `datetime.now()` is an environment parameter (`year`, two formatted
  timestamp strings); the HTTP layer (`requests.get`/`requests.head`) is an
  environment function, as the spec treats it as an external collaborator.
- Character classes follow the ASCII reading of the Python regexes; all
  concrete inputs used below are ASCII.
-/

namespace Aldi

/-- Values of the dynamically typed `jahr` field: `_extract_prospekt_info`
initialises it with the integer `datetime.now().year` and overwrites it
with the *string* `"20" + match` when a year token is found. -/
inductive JVal where
  | num (n : Int)
  | str (s : String)
deriving DecidableEq, Repr

/-- Python `str()` applied to a `jahr` value. -/
def jvalStr : JVal → String
  | .num n => toString n
  | .str s => s

/-- Lookup in an insertion-ordered association list (Python `d[k]` / `k in d`). -/
def dictGet {α : Type} : List (String × α) → String → Option α
  | [], _ => none
  | (k, v) :: rest, key => if k = key then some v else dictGet rest key

/-- Update-or-append for an insertion-ordered association list
(Python `d[k] = v`: an existing key keeps its position). -/
def dictSet {α : Type} : List (String × α) → String → α → List (String × α)
  | [], key, v => [(key, v)]
  | (k, w) :: rest, key, v =>
      if k = key then (key, v) :: rest else (k, w) :: dictSet rest key v

/-- Delete a key (Python `del d[k]`). -/
def dictDel {α : Type} : List (String × α) → String → List (String × α)
  | [], _ => []
  | (k, v) :: rest, key =>
      if k = key then dictDel rest key else (k, v) :: dictDel rest key

/-! String scanners mirroring the `re` patterns of the source.  They work on
`List Char` and implement leftmost-match semantics of `re.search`. -/

/-- Maximal leading digit run. -/
def takeDigits : List Char → List Char
  | [] => []
  | c :: cs => if c.isDigit then c :: takeDigits cs else []

/-- Is `p` a prefix of `t`? -/
def isPreOf : List Char → List Char → Bool
  | [], _ => true
  | _ :: _, [] => false
  | p :: ps, c :: cs => if p = c then isPreOf ps cs else false

/-- Python `pat in s` substring test. -/
def hasSub : List Char → List Char → Bool
  | t, pat =>
    if isPreOf pat t then true
    else match t with
      | [] => false
      | _ :: cs => hasSub cs pat

/-- Substring test on strings (`pat in s`). -/
def strIn (pat s : String) : Bool := hasSub s.data pat.data

/-- Python `str.lower` (ASCII reading), written over the character list so
that it evaluates inside the kernel. -/
def lowerStr (s : String) : String := ⟨s.data.map Char.toLower⟩

/-- Suffix test over character lists (kernel-evaluable `endswith`). -/
def endsWithStr (s suffix : String) : Bool :=
  isPreOf suffix.data.reverse s.data.reverse

/-- Python `sep.join(parts)`. -/
def joinParts (sep : String) : List String → String
  | [] => ""
  | [x] => x
  | x :: y :: xs => x ++ sep ++ joinParts sep (y :: xs)

/-- Leftmost match of `kw(\d+)` (case already lowered by the caller),
returning group 1. -/
def kwFind : List Char → Option String
  | 'k' :: 'w' :: c :: cs =>
      if c.isDigit then some ⟨c :: takeDigits cs⟩
      else kwFind ('w' :: c :: cs)
  | _ :: cs => kwFind cs
  | [] => none

/-- Leftmost match of `20(\d{2})`, returning the full four-digit token. -/
def yearFind : List Char → Option String
  | '2' :: '0' :: a :: b :: cs =>
      if a.isDigit && b.isDigit then some ⟨['2', '0', a, b]⟩
      else yearFind ('0' :: a :: b :: cs)
  | _ :: cs => yearFind cs
  | [] => none

/-- The month-name alternation of the source, in the order listed there. -/
def monthNames : List String :=
  ["januar", "februar", "märz", "april", "mai", "juni", "juli", "august",
   "september", "oktober", "november", "dezember"]

/-- First alternative matching at the head of `t`. -/
def monthAt (t : List Char) : Option String :=
  monthNames.find? (fun m => isPreOf m.data t)

/-- Leftmost match of the month-name alternation. -/
def monthFind : List Char → Option String
  | [] => none
  | c :: cs =>
      match monthAt (c :: cs) with
      | some m => some m
      | none => monthFind cs

/-- Python `str.capitalize`: first character upper, the rest lower. -/
def capStr (s : String) : String :=
  match s.data with
  | [] => ""
  | c :: cs => ⟨c.toUpper :: cs.map Char.toLower⟩

/-- Leftmost match of `kw[-_]?(\d+)`, returning group 1. -/
def kwFind2 : List Char → Option String
  | 'k' :: 'w' :: c :: cs =>
      if c.isDigit then some ⟨c :: takeDigits cs⟩
      else if c = '-' ∨ c = '_' then
        match cs with
        | d :: ds =>
            if d.isDigit then some ⟨d :: takeDigits ds⟩
            else kwFind2 ('w' :: c :: cs)
        | [] => kwFind2 ('w' :: c :: cs)
      else kwFind2 ('w' :: c :: cs)
  | _ :: cs => kwFind2 cs
  | [] => none

/-- First digit run anywhere in `t` (the effective semantics of
`[^0-9]*(\d+)` after a fixed point, since `[^0-9]*` cannot consume digits). -/
def digitRunAfter : List Char → Option String
  | [] => none
  | c :: cs => if c.isDigit then some ⟨c :: takeDigits cs⟩ else digitRunAfter cs

/-- Leftmost match of `kw[^0-9]*(\d+)`, returning group 1. -/
def kwFind3 : List Char → Option String
  | 'k' :: 'w' :: cs =>
      (match digitRunAfter cs with
       | some g => some g
       | none => kwFind3 ('w' :: cs))
  | _ :: cs => kwFind3 cs
  | [] => none

/-- Query string of a URL as in `urlparse`: drop the fragment (after the
first `#`), then take what follows the first `?`. -/
def urlQuery (u : String) : List Char :=
  match (u.data.takeWhile (fun c => decide (c ≠ '#'))).dropWhile (fun c => decide (c ≠ '?')) with
  | [] => []
  | _ :: r => r

/-- Split a character list on a separator. -/
def splitOnChar (sep : Char) : List Char → List (List Char)
  | [] => [[]]
  | c :: cs =>
      if c = sep then [] :: splitOnChar sep cs
      else match splitOnChar sep cs with
        | [] => [[c]]
        | g :: gs => (c :: g) :: gs

/-- Hexadecimal value of a character, if any. -/
def hexVal (c : Char) : Option Nat :=
  if '0' ≤ c ∧ c ≤ '9' then some (c.toNat - '0'.toNat)
  else if 'a' ≤ c ∧ c ≤ 'f' then some (c.toNat - 'a'.toNat + 10)
  else if 'A' ≤ c ∧ c ≤ 'F' then some (c.toNat - 'A'.toNat + 10)
  else none

/-- `urllib.parse.unquote_plus`: `+` to space, `%XY` hex-decoded, invalid
escapes left as-is. -/
def unquotePlus : List Char → List Char
  | [] => []
  | '+' :: r => ' ' :: unquotePlus r
  | '%' :: a :: b :: r =>
      (match hexVal a, hexVal b with
       | some x, some y => Char.ofNat (16 * x + y) :: unquotePlus r
       | _, _ => '%' :: unquotePlus (a :: b :: r))
  | c :: r => c :: unquotePlus r

/-- One `key=value` pair of a query string, as `parse_qsl` reads it: the
split is at the first `=`, both sides unquoted; pairs without `=` are
dropped, and so are pairs with an empty value (`keep_blank_values=False`). -/
def qsPair (t : List Char) : Option (String × String) :=
  if t.contains '=' then
    let key : String := ⟨unquotePlus (t.takeWhile (fun c => decide (c ≠ '=')))⟩
    let val : String := ⟨unquotePlus ((t.dropWhile (fun c => decide (c ≠ '='))).drop 1)⟩
    if val = "" then none else some (key, val)
  else none

/-- First value for `key` in the URL's query string
(`parse_qs(...)[key][0]`). -/
def queryFirst (u : String) (key : String) : Option String :=
  ((splitOnChar '&' (urlQuery u)).filterMap qsPair).lookup key

/-- The classification record built by `_extract_prospekt_info`. -/
structure ProspektInfo where
  typ : String
  datum : String
  kalenderwoche : String
  jahr : JVal
  supermarkt : String
deriving DecidableEq, Repr

/-- External environment of one run: the clock and the HTTP collaborator.
`httpGet url = some (status, body)` is a completed `requests.get`; `none` is
a transport failure (an exception in the source).  `headCD` is the
`content-disposition` header returned by `requests.head`, if any.
`renameOk = false` makes the commit-time `os.rename` raise, modelling a
filesystem `StorageError`. -/
structure Env where
  year : Int
  nowStr : String
  tsStr : String
  httpGet : String → Option (Nat × String)
  headCD : String → Option String
  renameOk : Bool

/-- `_extract_prospekt_info(url, title)` (lines 99-166 of the source). -/
def extractProspektInfo (env : Env) (url title : String) : ProspektInfo :=
  let lowAll := (lowerStr url ++ " " ++ lowerStr title).data
  let kw1 := match kwFind lowAll with
    | some g => g
    | none => ""
  let typ1 := match kwFind lowAll with
    | some _ => "Wochenangebot"
    | none => "Unbekannt"
  let jahr1 := match yearFind (url ++ " " ++ title).data with
    | some y => JVal.str y
    | none => JVal.num env.year
  let lowU := lowerStr url
  let lowT := lowerStr title
  let typDat :=
    if strIn "reisemagazin" lowU || strIn "reisemagazin" lowT then
      ("Reisemagazin",
        match monthFind lowAll with
        | some m => capStr m
        | none => "")
    else if strIn "garten" lowU || strIn "garten" lowT then
      ("Garten-Broschüre", "")
    else if strIn "themenkatalog" lowU || strIn "themenkatalog" lowT then
      ("Themenkatalog",
        match monthFind lowAll with
        | some m => capStr m
        | none => "")
    else if strIn "inlineflyer" lowU || strIn "inlineflyer" lowT then
      ("Inlineflyer", "")
    else (typ1, "")
  let datum2 := match queryFirst url "valid_from" with
    | some v => v
    | none => typDat.2
  let kw2 :=
    if typDat.1 = "Inlineflyer" ∧ kw1 = "" then
      match kwFind2 lowU.data with
      | some g => g
      | none =>
          if strIn "kw" lowU then
            match kwFind3 lowU.data with
            | some g => g
            | none => ""
          else ""
    else kw1
  ⟨typDat.1, datum2, kw2, jahr1, "Aldi_Sued"⟩

/-! Filename derivation (`download_pdf`, lines 395-443). -/

/-- The four characters of the literal `.pdf`. -/
def pdfChars : List Char := ['.', 'p', 'd', 'f']

/-- Match of `([^/]+)\.pdf` inside one slash-free segment: the group runs
from the segment start to the last `.pdf` occurrence at index at least 1
(greedy `[^/]+` backtracking minimally). -/
def pdfGroup (seg : List Char) : Option String :=
  match ((List.range seg.length).filter
      (fun k => decide (1 ≤ k) && isPreOf pdfChars (seg.drop k))).getLast? with
  | some g => some ⟨seg.take g⟩
  | none => none

/-- First `some` in a list of options. -/
def firstSome {α : Type} : List (Option α) → Option α
  | [] => none
  | some a :: _ => some a
  | none :: rest => firstSome rest

/-- Leftmost match of `([^/]+)\.pdf` over the URL: `[^/]+` cannot cross a
slash, so the match lives in the first slash-delimited segment containing a
non-initial `.pdf`. -/
def pdfNameFind (u : String) : Option String :=
  firstSome ((splitOnChar '/' u.data).map pdfGroup)

/-- An apostrophe character, for the `UTF-8` marker of the
content-disposition pattern. -/
def apos : Char := '\''

/-- The literal `UTF-8` followed by two apostrophes. -/
def utf8Marker : List Char := ['U', 'T', 'F', '-', '8', apos, apos]

/-- Greedy `[^\"]+` capture (none if empty). -/
def cdCapture (t : List Char) : Option String :=
  match t.takeWhile (fun c => decide (c ≠ '"')) with
  | [] => none
  | g => some ⟨g⟩

/-- After `filename=`: the optional `UTF-8''` or quote marker, then the
`[^\"]+` group, with regex backtracking to the empty marker alternative
when the marked capture would be empty. -/
def cdAfterEq (t : List Char) : Option String :=
  if isPreOf utf8Marker t then
    match (t.drop 7).takeWhile (fun c => decide (c ≠ '"')) with
    | [] => cdCapture t
    | g => some ⟨g⟩
  else
    match t with
    | '"' :: r => cdCapture r
    | _ => cdCapture t

/-- Leftmost match of `filename\*?=(?:UTF-8''|\")?([^\"]+)` over a
content-disposition header value. -/
def cdFind : List Char → Option String
  | 'f' :: 'i' :: 'l' :: 'e' :: 'n' :: 'a' :: 'm' :: 'e' :: rest =>
      (match (match rest with | '*' :: r => r | _ => rest) with
       | '=' :: r =>
           (match cdAfterEq r with
            | some g => some g
            | none => cdFind ('i' :: 'l' :: 'e' :: 'n' :: 'a' :: 'm' :: 'e' :: rest))
       | _ => cdFind ('i' :: 'l' :: 'e' :: 'n' :: 'a' :: 'm' :: 'e' :: rest))
  | _ :: cs => cdFind cs
  | [] => none

/-- Characters kept by `re.sub(r'[^\w\-_\. ]', '_', ...)` (ASCII reading of
`\w`). -/
def keepChar (c : Char) : Bool :=
  c.isAlphanum || c = '_' || c = '-' || c = '.' || c = ' '

/-- Filename sanitiser of line 413. -/
def sanitizeStr (s : String) : String :=
  ⟨s.data.map (fun c => if keepChar c then c else '_')⟩

/-- `re.sub(r'\.pdf$', '', s)`. -/
def stripPdfEnd (s : String) : String :=
  if endsWithStr s ".pdf" then ⟨s.data.take (s.data.length - 4)⟩ else s

/-- `os.path.join` for a relative second component. -/
def pathJoin (a b : String) : String :=
  if a = "" then b else if endsWithStr a "/" then a ++ b else a ++ "/" ++ b

/-- `hashlib.md5(url.encode()).hexdigest()`, modelled injectively. -/
def md5Hex (s : String) : String := "md5#" ++ s

/-- One archive record (`self.metadata["prospekte"][url_hash]`). -/
structure Record where
  url : String
  flyer_url : String
  title : String
  filename : String
  filepath : String
  hash : String
  downloaded_at : String
  info : ProspektInfo
deriving DecidableEq, Repr

/-- The persisted metadata index. -/
structure Metadata where
  prospekte : List (String × Record)
  last_update : String
  file_hashes : List (String × String)
deriving DecidableEq, Repr

/-- The default index of `_load_metadata` (line 80). -/
def emptyMetadata : Metadata := ⟨[], "", []⟩

/-- File contents: raw bytes, or a metadata value (JSON modelled as the
identity). -/
inductive Content where
  | raw (s : String)
  | meta (m : Metadata)
deriving DecidableEq, Repr

/-- A file is either truncated (a write began but did not finish) or fully
written. -/
inductive FileSt where
  | trunc
  | full (c : Content)
deriving DecidableEq, Repr

/-- The filesystem. -/
abbrev Fs := List (String × FileSt)

/-- `_get_file_hash` on in-memory bytes, modelled injectively (spec 4.1:
content equality is digest equality). -/
def contentSha : Content → String
  | .raw s => "sha256#" ++ s
  | .meta _ => "sha256#metadata"

/-- `os.path.exists`. -/
def fsExists (fs : Fs) (p : String) : Bool := (dictGet fs p).isSome

/-- `_get_file_hash(path)` (lines 91-97); reading a missing or truncated
file is never reached on the paths proved below. -/
def fsSha (fs : Fs) (p : String) : String :=
  match dictGet fs p with
  | some (.full c) => contentSha c
  | _ => "sha256#unreadable"

/-- Primitive filesystem actions; a crash state applies a prefix of the
emitted actions. -/
inductive Act where
  | truncate (p : String)
  | writeAll (p : String) (c : Content)
  | remove (p : String)
  | rename (src dst : String)
deriving DecidableEq, Repr

/-- Effect of one action. -/
def fsExec : Act → Fs → Fs
  | .truncate p, fs => dictSet fs p .trunc
  | .writeAll p c, fs => dictSet fs p (.full c)
  | .remove p, fs => dictDel fs p
  | .rename src dst, fs =>
      match dictGet fs src with
      | some st => dictSet (dictDel fs src) dst st
      | none => fs

/-- Run a list of actions. -/
def applyActs (l : List Act) (fs : Fs) : Fs :=
  l.foldl (fun f a => fsExec a f) fs

/-- State of one run: filesystem, in-memory metadata, log lines, and the
trace of filesystem actions performed so far. -/
structure S where
  fs : Fs
  md : Metadata
  log : List String
  acts : List Act
deriving DecidableEq, Repr

/-- Perform one filesystem action and record it. -/
def emit (s : S) (a : Act) : S :=
  { s with fs := fsExec a s.fs, acts := s.acts ++ [a] }

/-- Append a log line. -/
def logMsg (s : S) (m : String) : S := { s with log := s.log ++ [m] }

/-- A file write: truncate, then the full content (in-place `open(p, 'w')`
followed by writing everything). -/
def writeFile (s : S) (p : String) (c : Content) : S :=
  emit (emit s (.truncate p)) (.writeAll p c)

/-- Scraper configuration (`output_dir`, `force_download`). -/
structure Cfg where
  outputDir : String
  force : Bool
deriving DecidableEq, Repr

/-- `METADATA_FILE`. -/
def METADATA_FILE : String := "prospekte_metadata.json"

/-- `self.metadata_path`. -/
def metadataPath (cfg : Cfg) : String := pathJoin cfg.outputDir METADATA_FILE

/-- `_save_metadata` (lines 82-89): sets `last_update`, then rewrites the
metadata file in place.  Note there is no temporary file and no rename. -/
def saveMetadata (env : Env) (cfg : Cfg) (s : S) : S :=
  let md1 := { s.md with last_update := env.nowStr }
  writeFile { s with md := md1 } (metadataPath cfg) (.meta md1)

/-- `_load_metadata` (lines 55-80): missing file yields the default index
silently; an unreadable or malformed file logs a warning and yields the
default; otherwise records whose `filepath` no longer exists are purged
(every record of the model carries a `filepath` key) and, if any were,
the pruned index is rewritten in place.  `file_hashes` is left as loaded.
Returns the filesystem after the optional rewrite, the in-memory index,
and the warnings logged. -/
def loadMetadata (cfg : Cfg) (fs : Fs) : Fs × Metadata × List String :=
  match dictGet fs (metadataPath cfg) with
  | none => (fs, emptyMetadata, [])
  | some (.full (.meta m)) =>
      let toRemove := m.prospekte.filter (fun e => !fsExists fs e.2.filepath)
      let pruned := m.prospekte.filter (fun e => fsExists fs e.2.filepath)
      if toRemove.isEmpty then (fs, m, [])
      else
        let m1 := { m with prospekte := pruned }
        (dictSet (dictSet fs (metadataPath cfg) .trunc) (metadataPath cfg)
            (.full (.meta m1)), m1, [])
  | some _ => (fs, emptyMetadata, ["Fehler beim Laden der Metadaten"])

/-- Filename and base name derived in lines 395-443: better title from the
URL or the content-disposition header, sanitised, joined with the
classification fields; when only supermarket and year are present the
sanitised title is used instead. -/
def computeFilename (env : Env) (url title : String) (info : ProspektInfo) :
    String × String :=
  let bt0 := match pdfNameFind url with
    | some g => g
    | none => title
  let bt := match env.headCD url with
    | some hv =>
        (match cdFind hv.data with
         | some g => stripPdfEnd ((g.replace "%20" " ").replace "%25" "%")
         | none => bt0)
    | none => bt0
  let sanitized := sanitizeStr bt
  let parts := [info.supermarkt]
      ++ (if info.typ ≠ "Unbekannt" then [info.typ] else [])
      ++ (if info.kalenderwoche ≠ "" then ["KW" ++ info.kalenderwoche] else [])
      ++ (if info.datum ≠ "" then [info.datum] else [])
      ++ [jvalStr info.jahr]
  let parts2 := if parts.length ≤ 2 then [info.supermarkt, sanitized] else parts
  let base := joinParts "_" parts2
  (base, base ++ ".pdf")

/-- The classification-triple comparison of lines 448-494: three branches
(weekly offer by week and year; travel magazine or themed catalog by date
and year; inline flyer by week and year), all comparing `str(jahr)`. -/
def tripleBranch (info : ProspektInfo) (sr : Record) : Bool :=
  decide ((info.typ = "Wochenangebot" ∧ sr.info.typ = "Wochenangebot" ∧
       info.kalenderwoche = sr.info.kalenderwoche ∧
       jvalStr info.jahr = jvalStr sr.info.jahr)
    ∨ ((info.typ = "Reisemagazin" ∨ info.typ = "Themenkatalog") ∧
       sr.info.typ = info.typ ∧ info.datum = sr.info.datum ∧
       jvalStr info.jahr = jvalStr sr.info.jahr)
    ∨ (info.typ = "Inlineflyer" ∧ sr.info.typ = "Inlineflyer" ∧
       info.kalenderwoche = sr.info.kalenderwoche ∧
       jvalStr info.jahr = jvalStr sr.info.jahr))

/-- The loop of lines 448-494: first stored record matching a branch whose
backing file still exists (a matching record with a missing file is
skipped and the loop continues). -/
def findTripleMatch (fs : Fs) (info : ProspektInfo) :
    List (String × Record) → Option (String × Record)
  | [] => none
  | (h, r) :: rest =>
      if tripleBranch info r && fsExists fs r.filepath then some (h, r)
      else findTripleMatch fs info rest

/-- The loop of lines 499-507: first stored record whose `filepath` equals
the computed path. -/
def findByFilepath : List (String × Record) → String → Option (String × Record)
  | [], _ => none
  | (h, r) :: rest, fp =>
      if r.filepath = fp then some (h, r) else findByFilepath rest fp

/-- The content-hash dedup lookup of lines 552-557, evaluated after the
temporary file was written: skipped in force mode; otherwise the content
hash must map to a reference hash with a live record whose file exists. -/
def contentDup (s : S) (force : Bool) (h : String) : Option Record :=
  if force then none
  else
    match dictGet s.md.file_hashes h with
    | none => none
    | some uh =>
        match dictGet s.md.prospekte uh with
        | none => none
        | some er => if fsExists s.fs er.filepath then some er else none

/-- Body of `download_pdf` after the reference fast path (lines 392-599).
The final `os.rename` raises when `env.renameOk` is false; the surrounding
`except` logs and returns `none`, like any transport failure. -/
def downloadPdfSlow (env : Env) (cfg : Cfg) (s : S)
    (url title flyerUrl urlHash : String) : S × Option String :=
  let info := extractProspektInfo env flyerUrl title
  let bf := computeFilename env url title info
  let filepath := pathJoin cfg.outputDir bf.2
  let tripleHit := if cfg.force then none
    else findTripleMatch s.fs info s.md.prospekte
  match tripleHit with
  | some hit =>
      let s1 := { s with md :=
        { s.md with prospekte := dictSet s.md.prospekte urlHash hit.2 } }
      let s2 := saveMetadata env cfg s1
      (logMsg s2 ("bereits vorhanden: " ++ hit.2.filepath), some hit.2.filepath)
  | none =>
    if fsExists s.fs filepath && !cfg.force then
      match findByFilepath s.md.prospekte filepath with
      | some hit =>
          let s1 :=
            if hit.1 = urlHash then s
            else saveMetadata env cfg { s with md :=
              { s.md with prospekte := dictSet s.md.prospekte urlHash hit.2 } }
          (logMsg s1 ("Prospekt bereits vorhanden: " ++ filepath), some filepath)
      | none =>
          let fileHash := fsSha s.fs filepath
          let rec0 : Record :=
            ⟨url, flyerUrl, title, bf.2, filepath, fileHash, env.nowStr, info⟩
          let md1 := { s.md with
            prospekte := dictSet s.md.prospekte urlHash rec0,
            file_hashes := dictSet s.md.file_hashes fileHash urlHash }
          let s1 := saveMetadata env cfg { s with md := md1 }
          (logMsg s1 ("Prospekt bereits vorhanden (Metadaten aktualisiert): " ++
            filepath), some filepath)
    else
      let fnfp :=
        if fsExists s.fs filepath && cfg.force then
          (bf.1 ++ "_" ++ env.tsStr ++ ".pdf",
           pathJoin cfg.outputDir (bf.1 ++ "_" ++ env.tsStr ++ ".pdf"))
        else (bf.2, filepath)
      match env.httpGet url with
      | none => (logMsg s "Fehler beim Herunterladen des PDFs", none)
      | some resp =>
        if resp.1 = 200 then
          let tmp := fnfp.2 ++ ".tmp"
          let s1 := writeFile s tmp (.raw resp.2)
          let fileHash := contentSha (.raw resp.2)
          match contentDup s1 cfg.force fileHash with
          | some er =>
              let s2 := emit s1 (.remove tmp)
              let s3 := saveMetadata env cfg { s2 with md :=
                { s2.md with prospekte := dictSet s2.md.prospekte urlHash er } }
              (logMsg s3 ("Inhaltlich identischer Prospekt bereits vorhanden: " ++
                er.filepath), some er.filepath)
          | none =>
              let s2 := if fsExists s1.fs fnfp.2 then emit s1 (.remove fnfp.2) else s1
              if env.renameOk then
                let s3 := emit s2 (.rename tmp fnfp.2)
                let rec1 : Record :=
                  ⟨url, flyerUrl, title, fnfp.1, fnfp.2, fileHash, env.nowStr, info⟩
                let md1 := { s3.md with
                  prospekte := dictSet s3.md.prospekte urlHash rec1,
                  file_hashes := dictSet s3.md.file_hashes fileHash urlHash }
                let s4 := saveMetadata env cfg { s3 with md := md1 }
                (logMsg s4 ("Prospekt heruntergeladen nach " ++ fnfp.2), some fnfp.2)
              else (logMsg s2 "Fehler beim Herunterladen des PDFs", none)
        else
          (logMsg s ("PDF-Download fehlgeschlagen: HTTP " ++ toString resp.1), none)

/-- `download_pdf(url, title, flyer_url)` (lines 369-599), starting with
the reference fast path of lines 382-390. -/
def downloadPdf (env : Env) (cfg : Cfg) (s : S)
    (url title flyerUrl : String) : S × Option String :=
  let urlHash := md5Hex url
  let fast :=
    if cfg.force then none
    else
      match dictGet s.md.prospekte urlHash with
      | some r => if fsExists s.fs r.filepath then some r.filepath else none
      | none => none
  match fast with
  | some p => (logMsg s ("Prospekt bereits vorhanden: " ++ p), some p)
  | none => downloadPdfSlow env cfg s url title flyerUrl (md5Hex url)

/-- The per-flyer loop of `run` (lines 617-629), over already-resolved
`(pdf_url, title, flyer_url)` triples (discovery and PDF-link extraction
are the external browser collaborator); a failed flyer contributes no path
and the loop continues. -/
def processFlyers (env : Env) (cfg : Cfg) (s : S) :
    List (String × String × String) → S × List String
  | [] => (s, [])
  | fl :: rest =>
      match downloadPdf env cfg s fl.1 fl.2.1 fl.2.2 with
      | (s1, some p) =>
          let r := processFlyers env cfg s1 rest
          (r.1, p :: r.2)
      | (s1, none) => processFlyers env cfg s1 rest

/-- The target path computed by `download_pdf` for given inputs (used to
state theorems; definitionally the composition used inside
`downloadPdfSlow`). -/
def dlFilepath (env : Env) (cfg : Cfg) (url title flyerUrl : String) : String :=
  pathJoin cfg.outputDir
    (computeFilename env url title (extractProspektInfo env flyerUrl title)).2

/-- The spec's `referenceUrls` of a record, read off the index: the
reference hashes aliased to that record value. -/
def referenceHashes (md : Metadata) (rec : Record) : List String :=
  (md.prospekte.filter (fun e => decide (e.2 = rec))).map (fun e => e.1)

/-- A fresh archive: empty directory, default index. -/
def emptyS : S := ⟨[], emptyMetadata, [], []⟩

/-! Abbreviations for the state produced by a novel-document commit
(lines 539-593), used to state theorems. -/

/-- The record registered by a successful commit. -/
def commitRecord (env : Env) (cfg : Cfg) (u t f b : String) : Record :=
  ⟨u, f, t, (computeFilename env u t (extractProspektInfo env f t)).2,
   dlFilepath env cfg u t f, contentSha (.raw b), env.nowStr,
   extractProspektInfo env f t⟩

/-- The index after a successful commit and its save. -/
def commitMd (env : Env) (cfg : Cfg) (md : Metadata) (u t f b : String) : Metadata :=
  ⟨dictSet md.prospekte (md5Hex u) (commitRecord env cfg u t f b), env.nowStr,
   dictSet md.file_hashes (contentSha (.raw b)) (md5Hex u)⟩

/-- The action trace of a successful commit: write the temporary file (two
steps), rename it into place, persist the index (two steps). -/
def commitActs (env : Env) (cfg : Cfg) (md : Metadata) (u t f b : String) : List Act :=
  [.truncate (dlFilepath env cfg u t f ++ ".tmp"),
   .writeAll (dlFilepath env cfg u t f ++ ".tmp") (.raw b),
   .rename (dlFilepath env cfg u t f ++ ".tmp") (dlFilepath env cfg u t f),
   .truncate (metadataPath cfg),
   .writeAll (metadataPath cfg) (.meta (commitMd env cfg md u t f b))]

/-- The record registered when an on-disk file at the computed path is
adopted (lines 509-530): its hash is that of the bytes already on disk. -/
def adoptRecord (env : Env) (cfg : Cfg) (u t f db : String) : Record :=
  ⟨u, f, t, (computeFilename env u t (extractProspektInfo env f t)).2,
   dlFilepath env cfg u t f, contentSha (.raw db), env.nowStr,
   extractProspektInfo env f t⟩

/-- The index after adopting an on-disk file. -/
def adoptMd (env : Env) (cfg : Cfg) (md : Metadata) (u t f db : String) : Metadata :=
  { md with
    prospekte := dictSet md.prospekte (md5Hex u) (adoptRecord env cfg u t f db),
    file_hashes := dictSet md.file_hashes (contentSha (.raw db)) (md5Hex u) }

/-! Concrete inputs used by counterexamples and witnesses. -/

/-- A clock-only environment with no network. -/
def mkClock (y : Int) : Env := ⟨y, "", "", fun _ => none, fun _ => none, true⟩

/-- Force-mode configuration over `out`. -/
def cfgForce : Cfg := ⟨"out", true⟩

/-- Normal-mode configuration over `out`. -/
def cfgOut : Cfg := ⟨"out", false⟩

/-- Environment for the force-mode interruption scenario: every fetch
returns fresh bytes `NEW`, and the timestamp suffix is `TS1`. -/
def c1Env : Env := ⟨99, "NOW", "TS1", fun _ => some (200, "NEW"), fun _ => none, true⟩

/-- Initial filesystem of the interruption scenario: both the computed
target name and its timestamp-suffixed variant are occupied. -/
def c1S : S :=
  ⟨[("out/Aldi_Sued_p.pdf", .full (.raw "OLD1")),
    ("out/Aldi_Sued_p_TS1.pdf", .full (.raw "OLD2"))], emptyMetadata, [], []⟩

/-- Environment whose save timestamp is `T1`. -/
def c2Env : Env := ⟨2024, "T1", "TS", fun _ => none, fun _ => none, true⟩

/-- An index persisted at timestamp `T0`. -/
def c2Md : Metadata := ⟨[], "T0", []⟩

/-- State with the `T0` index both in memory and fully persisted. -/
def c2S : S := ⟨[(metadataPath cfgOut, .full (.meta c2Md))], c2Md, [], []⟩

/-- A record whose backing file will be missing at load time. -/
def c3Rec : Record :=
  ⟨"u", "fu", "t", "fn", "arch/x.pdf", "sha256#X", "T0",
   ⟨"Unbekannt", "", "", .num 2024, "Aldi_Sued"⟩⟩

/-- Persisted index holding `c3Rec` and a content-hash entry pointing at
it. -/
def c3Md : Metadata := ⟨[("h1", c3Rec)], "T0", [("sha256#X", "h1")]⟩

/-- Archive directory `arch` whose metadata file is intact but whose only
PDF is gone. -/
def c3Cfg : Cfg := ⟨"arch", false⟩

/-- Filesystem for the self-heal scenario: the metadata file exists, the
record's PDF does not. -/
def c3Fs : Fs := [(metadataPath c3Cfg, .full (.meta c3Md))]

/-- A stored inline-flyer record with an empty week field. -/
def c4Rec : Record :=
  ⟨"https://old/i.pdf", "https://old/f", "Inlineflyer",
   "Aldi_Sued_Inlineflyer_2024.pdf", "/arch/stored1.pdf", "sha256#X", "T0",
   ⟨"Inlineflyer", "", "", .num 2024, "Aldi_Sued"⟩⟩

/-- Environment for the empty-period-key dedup scenario: no network at
all, current year 2024. -/
def c4Env : Env := ⟨2024, "NOW", "TS", fun _ => none, fun _ => none, true⟩

/-- State holding `c4Rec` (file present) under the old URL's hash. -/
def c4S : S :=
  ⟨[("/arch/stored1.pdf", .full (.raw "X"))],
   ⟨[("md5#https://old/i.pdf", c4Rec)], "T0", [("sha256#X", "md5#https://old/i.pdf")]⟩,
   [], []⟩

/-- Clock-only environment with year 2024. -/
def c7Env : Env := mkClock 2024

/-- A record for the adoption scenario whose path differs from the
computed target. -/
def c10Rec : Record :=
  ⟨"https://h/x.pdf", "https://h/f", "T", "old.pdf", "/arch/p1.pdf",
   "sha256#P1", "T0", ⟨"Unbekannt", "", "", .num 2024, "Aldi_Sued"⟩⟩

/-- Environment for the adoption scenario (no network). -/
def c10Env : Env := ⟨2024, "NOW", "TS", fun _ => none, fun _ => none, true⟩

/-- State where a file occupies the computed target path, no record owns
that path, but the URL itself is already archived elsewhere. -/
def c10S : S :=
  ⟨[("/arch/p1.pdf", .full (.raw "P1")), ("out/Aldi_Sued_x.pdf", .full (.raw "DISK"))],
   ⟨[("md5#https://h/x.pdf", c10Rec)], "T0", []⟩, [], []⟩

/-- Environment for the fresh-archive runs: every fetch yields bytes
`B1`. -/
def cwEnv : Env := ⟨2025, "NOW", "TS", fun _ => some (200, "B1"), fun _ => none, true⟩

/-- State for the adoption witness: a file sits at the computed target
path and the index is empty. -/
def w10S : S := ⟨[("out/Aldi_Sued_x.pdf", .full (.raw "DISK"))], emptyMetadata, [], []⟩

/-! Basic lemmas about the association-list operations. -/

@[simp]
theorem dictGet_nil {α : Type} (k : String) :
    dictGet ([] : List (String × α)) k = none := rfl

theorem dictGet_cons {α : Type} (k' : String) (v : α) (l : List (String × α))
    (k : String) :
    dictGet ((k', v) :: l) k = if k' = k then some v else dictGet l k := rfl

theorem dictGet_dictSet {α : Type} (l : List (String × α)) (key k : String)
    (v : α) :
    dictGet (dictSet l key v) k = if key = k then some v else dictGet l k := by
  induction l with
  | nil => simp [dictGet, dictSet]
  | cons e rest ih =>
      obtain ⟨k', w⟩ := e
      by_cases h1 : k' = key
      · subst h1
        by_cases h2 : k' = k <;> simp [dictSet, dictGet, h2]
      · by_cases h2 : k' = k
        · subst h2
          have hkk : ¬ key = k' := fun he => h1 he.symm
          simp [dictSet, dictGet, h1, hkk]
        · simp [dictSet, dictGet, h1, h2, ih]

theorem dictGet_dictDel {α : Type} (l : List (String × α)) (key k : String) :
    dictGet (dictDel l key) k = if key = k then none else dictGet l k := by
  induction l with
  | nil => simp [dictDel, dictGet]
  | cons e rest ih =>
      obtain ⟨k', w⟩ := e
      by_cases h1 : k' = key
      · subst h1
        by_cases h2 : k' = k
        · subst h2; simp [dictDel, dictGet, ih] at *
        · simp [dictDel, dictGet, h2, ih]
      · by_cases h2 : k' = k
        · subst h2
          have hkk : ¬ key = k' := fun he => h1 he.symm
          simp [dictDel, dictGet, h1, hkk]
        · simp [dictDel, dictGet, h1, h2, ih]

theorem dictDel_dictSet {α : Type} (l : List (String × α)) (key : String)
    (v : α) :
    dictDel (dictSet l key v) key = dictDel l key := by
  induction l with
  | nil => simp [dictDel, dictSet]
  | cons e rest ih =>
      obtain ⟨k', w⟩ := e
      by_cases h1 : k' = key
      · subst h1; simp [dictDel, dictSet]
      · simp [dictDel, dictSet, h1, ih]

theorem dictSet_dictSet {α : Type} (l : List (String × α)) (key : String)
    (v w : α) :
    dictSet (dictSet l key v) key w = dictSet l key w := by
  induction l with
  | nil => simp [dictSet]
  | cons e rest ih =>
      obtain ⟨k', u⟩ := e
      by_cases h1 : k' = key
      · subst h1; simp [dictSet]
      · simp [dictSet, h1, ih]

theorem dictGet_mem {α : Type} {l : List (String × α)} {k : String} {v : α}
    (h : dictGet l k = some v) : (k, v) ∈ l := by
  induction l with
  | nil => simp [dictGet] at h
  | cons e rest ih =>
      obtain ⟨k', w⟩ := e
      by_cases h1 : k' = k
      · subst h1
        simp [dictGet] at h
        subst h
        exact List.mem_cons_self _ _
      · simp [dictGet, h1] at h
        exact List.mem_cons_of_mem _ (ih h)

/-- A key mapped to a record value is among that record's reference
hashes. -/
theorem mem_referenceHashes {md : Metadata} {k : String} {rec : Record}
    (h : dictGet md.prospekte k = some rec) :
    k ∈ referenceHashes md rec := by
  have hm := dictGet_mem h
  simp only [referenceHashes, List.mem_map]
  exact ⟨(k, rec), by simp [List.mem_filter, hm], rfl⟩

/-- Appending a nonempty literal changes a string; in particular the
temporary path differs from its target. -/
theorem tmp_ne (p : String) : p ++ ".tmp" ≠ p := by
  intro h
  have hl := congrArg String.length h
  rw [String.length_append] at hl
  have h4 : (".tmp" : String).length = 4 := rfl
  rw [h4] at hl
  omega

/-- The modelled `md5` is injective (collision freedom, spec 4.1). -/
theorem md5Hex_inj {a b : String} (h : md5Hex a = md5Hex b) : a = b := by
  have hd := congrArg String.data h
  simp only [md5Hex, String.data_append] at hd
  have hdd := List.append_cancel_left hd
  cases a; cases b; exact congrArg String.mk hdd

/-- The group captured by the week pattern is never empty. -/
theorem kwFind_ne_empty {l : List Char} {g : String} (h : kwFind l = some g) :
    g ≠ "" := by
  induction l using kwFind.induct with
  | case1 c cs hd =>
      rw [kwFind] at h
      simp only [hd, if_pos] at h
      cases h
      intro he
      have := congrArg String.data he
      simp at this
  | case2 c cs hd ih =>
      rw [kwFind] at h
      simp only [hd, if_neg] at h
      exact ih (by simpa using h)
  | case3 c cs hne ih =>
      rw [kwFind] at h
      · exact ih h
      · exact hne
  | case4 => simp [kwFind] at h

/-! Symbolic execution of `download_pdf` along its main paths. -/

/-- When the reference fast path of lines 382-390 does not fire (unknown
URL hash, or its file is gone), `download_pdf` proceeds to the slow
path. -/
theorem downloadPdf_fastMiss (env : Env) (cfg : Cfg) (s : S) (u t f : String)
    (hforce : cfg.force = false)
    (href : ∀ r, dictGet s.md.prospekte (md5Hex u) = some r →
      fsExists s.fs r.filepath = false) :
    downloadPdf env cfg s u t f = downloadPdfSlow env cfg s u t f (md5Hex u) := by
  unfold downloadPdf
  cases hc : dictGet s.md.prospekte (md5Hex u) with
  | none => simp [hforce, hc]
  | some r => simp [hforce, hc, href r hc]

/-- A fully novel document in normal mode: no reference hit, no triple
hit, nothing at the target path, a 200 fetch, a fresh content hash, and a
working rename; the commit writes the temporary file, renames it into
place, registers the record, and persists. -/
theorem downloadPdf_commit (env : Env) (cfg : Cfg) (s : S) (u t f b : String)
    (hforce : cfg.force = false)
    (href : ∀ r, dictGet s.md.prospekte (md5Hex u) = some r →
      fsExists s.fs r.filepath = false)
    (htrip : findTripleMatch s.fs (extractProspektInfo env f t) s.md.prospekte = none)
    (hfp : dictGet s.fs (dlFilepath env cfg u t f) = none)
    (hget : env.httpGet u = some (200, b))
    (hdup : dictGet s.md.file_hashes (contentSha (.raw b)) = none)
    (hrok : env.renameOk = true) :
    downloadPdf env cfg s u t f =
      ({ fs := dictSet (dictSet (dictDel s.fs (dlFilepath env cfg u t f ++ ".tmp"))
            (dlFilepath env cfg u t f) (.full (.raw b)))
            (metadataPath cfg) (.full (.meta (commitMd env cfg s.md u t f b))),
         md := commitMd env cfg s.md u t f b,
         log := s.log ++ ["Prospekt heruntergeladen nach " ++ dlFilepath env cfg u t f],
         acts := s.acts ++ commitActs env cfg s.md u t f b },
       some (dlFilepath env cfg u t f)) := by
  rw [downloadPdf_fastMiss env cfg s u t f hforce href]
  simp only [dlFilepath] at hfp
  unfold downloadPdfSlow
  simp only [hforce, if_false, Bool.false_eq_true, htrip]
  simp only [fsExists, hfp, Option.isSome_none, Bool.false_and, Bool.and_false,
    Bool.false_eq_true, if_false, hget]
  have hne := tmp_ne (pathJoin cfg.outputDir
    (computeFilename env u t (extractProspektInfo env f t)).2)
  simp [contentDup, writeFile, emit, fsExec, saveMetadata, logMsg, hdup, hrok,
    dictGet_dictSet, dictDel_dictSet, dictSet_dictSet, hne, commitMd, commitActs,
    commitRecord, dlFilepath, metadataPath, fsExists, hfp]

/-- Same situation as `downloadPdf_commit`, but the rename raises: the
outer handler logs, the result is `none`, and neither the in-memory index
nor anything beyond the temporary file changed. -/
theorem downloadPdf_renameFail (env : Env) (cfg : Cfg) (s : S) (u t f b : String)
    (hforce : cfg.force = false)
    (href : ∀ r, dictGet s.md.prospekte (md5Hex u) = some r →
      fsExists s.fs r.filepath = false)
    (htrip : findTripleMatch s.fs (extractProspektInfo env f t) s.md.prospekte = none)
    (hfp : dictGet s.fs (dlFilepath env cfg u t f) = none)
    (hget : env.httpGet u = some (200, b))
    (hdup : dictGet s.md.file_hashes (contentSha (.raw b)) = none)
    (hrok : env.renameOk = false) :
    downloadPdf env cfg s u t f =
      ({ fs := dictSet (dictSet s.fs (dlFilepath env cfg u t f ++ ".tmp") .trunc)
            (dlFilepath env cfg u t f ++ ".tmp") (.full (.raw b)),
         md := s.md,
         log := s.log ++ ["Fehler beim Herunterladen des PDFs"],
         acts := s.acts ++
           [.truncate (dlFilepath env cfg u t f ++ ".tmp"),
            .writeAll (dlFilepath env cfg u t f ++ ".tmp") (.raw b)] },
       none) := by
  rw [downloadPdf_fastMiss env cfg s u t f hforce href]
  simp only [dlFilepath] at hfp
  unfold downloadPdfSlow
  simp only [hforce, if_false, Bool.false_eq_true, htrip]
  simp only [fsExists, hfp, Option.isSome_none, Bool.false_and, Bool.and_false,
    Bool.false_eq_true, if_false, hget]
  have hne := tmp_ne (pathJoin cfg.outputDir
    (computeFilename env u t (extractProspektInfo env f t)).2)
  simp [contentDup, writeFile, emit, fsExec, logMsg, hdup, hrok,
    dictGet_dictSet, hne, dlFilepath, fsExists, hfp]

/-- Adoption of an on-disk file (lines 496-530): in normal mode, with no
reference or triple hit, a file at the computed target path owned by no
record is hashed and registered under the fetched URL's reference hash,
the index is persisted, and the on-disk path is returned; no fetch
happens. -/
theorem downloadPdf_adopt (env : Env) (cfg : Cfg) (s : S) (u t f db : String)
    (hforce : cfg.force = false)
    (href : ∀ r, dictGet s.md.prospekte (md5Hex u) = some r →
      fsExists s.fs r.filepath = false)
    (htrip : findTripleMatch s.fs (extractProspektInfo env f t) s.md.prospekte = none)
    (hdisk : dictGet s.fs (dlFilepath env cfg u t f) = some (.full (.raw db)))
    (hnofp : findByFilepath s.md.prospekte (dlFilepath env cfg u t f) = none) :
    downloadPdf env cfg s u t f =
      (logMsg (saveMetadata env cfg { s with md := adoptMd env cfg s.md u t f db })
        ("Prospekt bereits vorhanden (Metadaten aktualisiert): " ++
          dlFilepath env cfg u t f),
       some (dlFilepath env cfg u t f)) := by
  rw [downloadPdf_fastMiss env cfg s u t f hforce href]
  simp only [dlFilepath] at hdisk hnofp
  unfold downloadPdfSlow
  simp only [hforce, if_false, Bool.false_eq_true, htrip]
  simp [fsExists, hdisk, hnofp, fsSha, adoptMd, adoptRecord, dlFilepath,
    commitRecord]

/-- Claim C2, counterexample: `_save_metadata` emits no rename and no
temporary file — its trace is a truncate followed by an in-place write of
the metadata file, and interrupting between the two leaves the persisted
file truncated (neither the old nor the new index), contradicting
write-temp-then-rename atomicity. -/
theorem c2_counterexample :
    (saveMetadata c2Env cfgOut c2S).acts =
      [.truncate (metadataPath cfgOut),
       .writeAll (metadataPath cfgOut) (.meta ⟨[], "T1", []⟩)] ∧
    dictGet c2S.fs (metadataPath cfgOut) = some (.full (.meta c2Md)) ∧
    dictGet (applyActs ((saveMetadata c2Env cfgOut c2S).acts.take 1) c2S.fs)
      (metadataPath cfgOut) = some .trunc := by
  refine ⟨by decide, by decide, by decide⟩

/-- Claim C2 (amended): every persist writes the full index with an
updated `last_update`, but directly in place — a truncate step followed by
one full write, with no temporary file and no rename; a completed save
leaves exactly the new index, while an interruption between the two steps
leaves the metadata file truncated. -/
theorem c2_amended (env : Env) (cfg : Cfg) (s : S) :
    saveMetadata env cfg s =
      { fs := applyActs [Act.truncate (metadataPath cfg),
            Act.writeAll (metadataPath cfg)
              (.meta { s.md with last_update := env.nowStr })] s.fs,
        md := { s.md with last_update := env.nowStr },
        log := s.log,
        acts := s.acts ++ [Act.truncate (metadataPath cfg),
            Act.writeAll (metadataPath cfg)
              (.meta { s.md with last_update := env.nowStr })] } ∧
    dictGet (applyActs [Act.truncate (metadataPath cfg)] s.fs) (metadataPath cfg) =
      some .trunc ∧
    dictGet (saveMetadata env cfg s).fs (metadataPath cfg) =
      some (.full (.meta { s.md with last_update := env.nowStr })) := by
  refine ⟨?_, ?_, ?_⟩
  · simp [saveMetadata, writeFile, emit, applyActs, fsExec]
  · simp [applyActs, fsExec, dictGet_dictSet]
  · simp [saveMetadata, writeFile, emit, fsExec, dictGet_dictSet]

/-- Claim C3, counterexample: loading an index whose only record's file is
missing purges the record and re-persists, but the `file_hashes` entry
referring to the purged record survives — the content-hash index is not
purged, contradicting the claim. -/
theorem c3_counterexample :
    (loadMetadata c3Cfg c3Fs).2.1.prospekte = [] ∧
    (loadMetadata c3Cfg c3Fs).2.1.file_hashes = [("sha256#X", "h1")] ∧
    dictGet (loadMetadata c3Cfg c3Fs).1 (metadataPath c3Cfg) =
      some (.full (.meta ⟨[], "T0", [("sha256#X", "h1")]⟩)) := by
  refine ⟨by decide, by decide, by decide⟩

/-- Claim C3 (amended): load keeps exactly the records whose backing file
exists, re-persists the pruned `prospekte` map whenever something was
purged, and leaves it untouched when nothing was — but the `byContentHash`
(`file_hashes`) mapping is carried over unchanged, dangling entries
included. -/
theorem c3_amended (cfg : Cfg) (fs : Fs) (m : Metadata)
    (h : dictGet fs (metadataPath cfg) = some (.full (.meta m))) :
    (loadMetadata cfg fs).2.1.prospekte =
        m.prospekte.filter (fun e => fsExists fs e.2.filepath) ∧
    (loadMetadata cfg fs).2.1.file_hashes = m.file_hashes ∧
    (∀ e ∈ (loadMetadata cfg fs).2.1.prospekte, fsExists fs e.2.filepath = true) ∧
    ((m.prospekte.filter (fun e => !fsExists fs e.2.filepath)).isEmpty = false →
      dictGet (loadMetadata cfg fs).1 (metadataPath cfg) =
        some (.full (.meta (loadMetadata cfg fs).2.1))) ∧
    ((m.prospekte.filter (fun e => !fsExists fs e.2.filepath)).isEmpty = true →
      loadMetadata cfg fs = (fs, m, [])) := by
  have hfilter : ∀ (_ : (m.prospekte.filter (fun e => !fsExists fs e.2.filepath)).isEmpty = true),
      m.prospekte.filter (fun e => fsExists fs e.2.filepath) = m.prospekte := by
    intro he
    rw [List.isEmpty_iff] at he
    rw [List.filter_eq_self]
    intro a ha
    have := List.filter_eq_nil_iff.mp he a ha
    simpa using this
  by_cases he : (m.prospekte.filter (fun e => !fsExists fs e.2.filepath)).isEmpty = true
  · have hl : loadMetadata cfg fs = (fs, m, []) := by
      unfold loadMetadata
      rw [h]
      simp only [he, if_true]
    rw [hl]
    refine ⟨(hfilter he).symm, rfl, ?_, ?_, fun _ => rfl⟩
    · intro e hmem
      rw [List.isEmpty_iff] at he
      have := List.filter_eq_nil_iff.mp he e hmem
      simpa using this
    · intro hf
      rw [he] at hf
      cases hf
  · have hl : loadMetadata cfg fs =
        (dictSet (dictSet fs (metadataPath cfg) .trunc) (metadataPath cfg)
          (.full (.meta ⟨m.prospekte.filter (fun e => fsExists fs e.2.filepath),
            m.last_update, m.file_hashes⟩)),
         ⟨m.prospekte.filter (fun e => fsExists fs e.2.filepath),
           m.last_update, m.file_hashes⟩,
         []) := by
      unfold loadMetadata
      rw [h]
      simp [he]
    rw [hl]
    refine ⟨rfl, rfl, ?_, ?_, ?_⟩
    · intro e hmem
      exact (List.mem_filter.mp hmem).2
    · intro _
      simp [dictGet_dictSet]
    · intro hf
      exact absurd hf he

/-- Claim C9, counterexample: with the metadata file missing, load returns
the empty index but logs nothing — the missing-file case is silent,
contradicting the claim that the condition is logged. -/
theorem c9_counterexample :
    loadMetadata cfgOut [] = ([], emptyMetadata, []) := rfl

/-- Claim C9 (amended): a missing metadata file yields the empty index
silently; a truncated or non-index file yields the empty index with a
warning logged; load is a total function, so it never raises. -/
theorem c9_amended (cfg : Cfg) (fs : Fs) :
    (dictGet fs (metadataPath cfg) = none →
      loadMetadata cfg fs = (fs, emptyMetadata, [])) ∧
    (dictGet fs (metadataPath cfg) = some .trunc →
      loadMetadata cfg fs = (fs, emptyMetadata, ["Fehler beim Laden der Metadaten"])) ∧
    (∀ bs, dictGet fs (metadataPath cfg) = some (.full (.raw bs)) →
      loadMetadata cfg fs = (fs, emptyMetadata, ["Fehler beim Laden der Metadaten"])) := by
  refine ⟨fun h => by unfold loadMetadata; rw [h],
          fun h => by unfold loadMetadata; rw [h],
          fun bs h => by unfold loadMetadata; rw [h]⟩


/-- Claim C6, counterexample: on `reisemagazin-kw12-2024` the week pattern
matches (periodKey `12` is set), yet the travel-magazine keyword overrides
the document type afterwards, so `documentType` is `Reisemagazin`, not
`WeeklyOffer` — the family keywords are not restricted to the case where
the week pattern failed. -/
theorem c6_counterexample :
    (extractProspektInfo (mkClock 2025) "https://x/reisemagazin-kw12-2024" "").typ =
      "Reisemagazin" ∧
    (extractProspektInfo (mkClock 2025) "https://x/reisemagazin-kw12-2024" "").typ ≠
      "Wochenangebot" ∧
    (extractProspektInfo (mkClock 2025) "https://x/reisemagazin-kw12-2024" "").kalenderwoche =
      "12" ∧
    kwFind (lowerStr "https://x/reisemagazin-kw12-2024" ++ " " ++ lowerStr "").data =
      some "12" := by
  refine ⟨by decide, by decide, by decide, by decide⟩

/-- Claim C6 (amended): whenever the case-insensitive week pattern
matches, `periodKey` is the matched week number; the provisional
`WeeklyOffer` type however survives only when no family keyword occurs —
any of the four family keywords overrides `documentType` even when the
week pattern matched, in the fixed cascade order of the source. -/
theorem c6_amended (env : Env) (url title g : String)
    (h : kwFind (lowerStr url ++ " " ++ lowerStr title).data = some g) :
    (extractProspektInfo env url title).kalenderwoche = g ∧
    (extractProspektInfo env url title).typ =
      (if strIn "reisemagazin" (lowerStr url) || strIn "reisemagazin" (lowerStr title) then
        "Reisemagazin"
       else if strIn "garten" (lowerStr url) || strIn "garten" (lowerStr title) then
        "Garten-Broschüre"
       else if strIn "themenkatalog" (lowerStr url) || strIn "themenkatalog" (lowerStr title) then
        "Themenkatalog"
       else if strIn "inlineflyer" (lowerStr url) || strIn "inlineflyer" (lowerStr title) then
        "Inlineflyer"
       else "Wochenangebot") := by
  have hg := kwFind_ne_empty h
  unfold extractProspektInfo
  simp only [h]
  split_ifs with h1 h2 h3 h4 <;> simp_all

/-- Claim C7, counterexample: on the claim's example the classifier yields
`documentType` WeeklyOffer and `periodKey` `"12"`, but the year is the
*string* `"2024"` (the source assigns `"20" + match`), not the integer
2024 — even with the clock year set to 2024. -/
theorem c7_counterexample :
    (extractProspektInfo c7Env "https://x/prospekte/kw12-2024" "Weekly Offer KW12").typ =
      "Wochenangebot" ∧
    (extractProspektInfo c7Env "https://x/prospekte/kw12-2024" "Weekly Offer KW12").kalenderwoche =
      "12" ∧
    (extractProspektInfo c7Env "https://x/prospekte/kw12-2024" "Weekly Offer KW12").jahr =
      .str "2024" ∧
    (extractProspektInfo c7Env "https://x/prospekte/kw12-2024" "Weekly Offer KW12").jahr ≠
      .num 2024 := by
  refine ⟨by decide, by decide, by decide, by decide⟩

/-- Claim C7 (amended): the example classifies to WeeklyOffer, periodKey
`"12"`, and year the string `"2024"`; the `(documentType, periodKey,
year)` triple is unchanged under upper-casing and under the tested
trailing query parameters (including a `valid_from` parameter, which only
changes the date field); when no `20xx` token occurs anywhere, the year
defaults to the current calendar year as an integer. -/
theorem c7_amended :
    extractProspektInfo c7Env "https://x/prospekte/kw12-2024" "Weekly Offer KW12" =
      ⟨"Wochenangebot", "", "12", .str "2024", "Aldi_Sued"⟩ ∧
    (extractProspektInfo c7Env "HTTPS://X/PROSPEKTE/KW12-2024" "WEEKLY OFFER KW12").typ =
      "Wochenangebot" ∧
    (extractProspektInfo c7Env "HTTPS://X/PROSPEKTE/KW12-2024" "WEEKLY OFFER KW12").kalenderwoche =
      "12" ∧
    (extractProspektInfo c7Env "HTTPS://X/PROSPEKTE/KW12-2024" "WEEKLY OFFER KW12").jahr =
      .str "2024" ∧
    (extractProspektInfo c7Env "https://x/prospekte/kw12-2024?page=2&ref=mail" "Weekly Offer KW12").typ =
      "Wochenangebot" ∧
    (extractProspektInfo c7Env "https://x/prospekte/kw12-2024?page=2&ref=mail" "Weekly Offer KW12").kalenderwoche =
      "12" ∧
    (extractProspektInfo c7Env "https://x/prospekte/kw12-2024?page=2&ref=mail" "Weekly Offer KW12").jahr =
      .str "2024" ∧
    (extractProspektInfo c7Env "https://x/prospekte/kw12-2024?valid_from=2024-03-01" "Weekly Offer KW12").typ =
      "Wochenangebot" ∧
    (extractProspektInfo c7Env "https://x/prospekte/kw12-2024?valid_from=2024-03-01" "Weekly Offer KW12").kalenderwoche =
      "12" ∧
    (extractProspektInfo c7Env "https://x/prospekte/kw12-2024?valid_from=2024-03-01" "Weekly Offer KW12").jahr =
      .str "2024" ∧
    (∀ y : Int,
      (extractProspektInfo (mkClock y) "https://x/prospekte/kw12" "Weekly Offer KW12").jahr =
        .num y) := by
  refine ⟨by decide, by decide, by decide, by decide, by decide, by decide, by decide,
    by decide, by decide, by decide, fun y => rfl⟩

/-- Claim C4, counterexample: a document classified as inline flyer with
no week number (empty periodKey) is matched by triple against a stored
inline-flyer record that also has an empty week field: `download_pdf`
returns the stored record's path and registers an alias, although the
environment offers no fetchable bytes at all — contradicting both
`only triples with non-empty periodKey` and `deduplicated by content hash
only`. -/
theorem c4_counterexample :
    (extractProspektInfo c4Env "https://new/inlineflyer-neu" "Inlineflyer").typ =
      "Inlineflyer" ∧
    (extractProspektInfo c4Env "https://new/inlineflyer-neu" "Inlineflyer").kalenderwoche =
      "" ∧
    c4Rec.info.kalenderwoche = "" ∧
    c4Env.httpGet "https://new/inlineflyer-neu.pdf" = none ∧
    (downloadPdf c4Env cfgOut c4S "https://new/inlineflyer-neu.pdf" "Inlineflyer"
        "https://new/inlineflyer-neu").2 = some "/arch/stored1.pdf" ∧
    dictGet (downloadPdf c4Env cfgOut c4S "https://new/inlineflyer-neu.pdf" "Inlineflyer"
        "https://new/inlineflyer-neu").1.md.prospekte
      (md5Hex "https://new/inlineflyer-neu.pdf") = some c4Rec := by
  refine ⟨by decide, by decide, by decide, rfl, by decide, by decide⟩

/-- Claim C4 (amended): a triple hit is always an entry of the stored
index with a live backing file, equal `documentType` and equal
`str(year)`; types Unknown and garden-brochure are never matched.  The
period comparison is the week field for weekly offers and inline flyers
and the date field for travel magazines and themed catalogs — compared as
plain values, so two documents of the same type whose period field is
empty on both sides (possible for inline flyers without a week token and
for travel magazines or themed catalogs without a month) do match. -/
theorem c4_amended (fs : Fs) (info : ProspektInfo) (l : List (String × Record))
    (h : String) (r : Record)
    (hm : findTripleMatch fs info l = some (h, r)) :
    (h, r) ∈ l ∧ fsExists fs r.filepath = true ∧
    r.info.typ = info.typ ∧ jvalStr r.info.jahr = jvalStr info.jahr ∧
    info.typ ≠ "Unbekannt" ∧ info.typ ≠ "Garten-Broschüre" ∧
    ((info.typ = "Wochenangebot" ∨ info.typ = "Inlineflyer") →
      r.info.kalenderwoche = info.kalenderwoche) ∧
    ((info.typ = "Reisemagazin" ∨ info.typ = "Themenkatalog") →
      r.info.datum = info.datum) := by
  induction l with
  | nil => simp [findTripleMatch] at hm
  | cons e rest ih =>
      obtain ⟨k, sr⟩ := e
      rw [findTripleMatch] at hm
      by_cases hc : (tripleBranch info sr && fsExists fs sr.filepath) = true
      · rw [if_pos hc] at hm
        cases hm
        obtain ⟨hb, hex⟩ := (Bool.and_eq_true _ _).mp hc
        rw [tripleBranch, decide_eq_true_eq] at hb
        refine ⟨List.mem_cons_self _ _, hex, ?_⟩
        rcases hb with ⟨h1, h2, h3, h4⟩ | ⟨h1, h2, h3, h4⟩ | ⟨h1, h2, h3, h4⟩
        · refine ⟨by rw [h1, h2], h4.symm, by rw [h1]; decide, by rw [h1]; decide,
            fun _ => h3.symm, fun hor => ?_⟩
          rcases hor with h5 | h5 <;> rw [h1] at h5 <;> exact absurd h5 (by decide)
        · refine ⟨h2, h4.symm, ?_, ?_, fun hor => ?_, fun _ => h3.symm⟩
          · rcases h1 with h1 | h1 <;> rw [h1] <;> decide
          · rcases h1 with h1 | h1 <;> rw [h1] <;> decide
          · rcases h1 with h1 | h1 <;> rcases hor with h5 | h5 <;>
              rw [h1] at h5 <;> exact absurd h5 (by decide)
        · refine ⟨by rw [h1, h2], h4.symm, by rw [h1]; decide, by rw [h1]; decide,
            fun _ => h3.symm, fun hor => ?_⟩
          rcases hor with h5 | h5 <;> rw [h1] at h5 <;> exact absurd h5 (by decide)
      · rw [if_neg hc] at hm
        obtain ⟨ha, hrest⟩ := ih hm
        exact ⟨List.mem_cons_of_mem _ ha, hrest⟩


/-- Witness for `c3_amended` at the concrete self-heal scenario. -/
theorem c3_amended_witness :
    (loadMetadata c3Cfg c3Fs).2.1.prospekte = [] ∧
    (loadMetadata c3Cfg c3Fs).2.1.file_hashes = c3Md.file_hashes := by
  have h := c3_amended c3Cfg c3Fs c3Md (by decide)
  exact ⟨h.1.trans (by decide), h.2.1⟩

/-- Witness for `c9_amended` at a truncated metadata file. -/
theorem c9_amended_witness :
    loadMetadata cfgOut [(metadataPath cfgOut, FileSt.trunc)] =
      ([(metadataPath cfgOut, FileSt.trunc)], emptyMetadata,
       ["Fehler beim Laden der Metadaten"]) :=
  (c9_amended cfgOut [(metadataPath cfgOut, FileSt.trunc)]).2.1 (by decide)

/-- Witness for `c4_amended` at the concrete empty-period-key hit. -/
theorem c4_amended_witness :
    ("md5#https://old/i.pdf", c4Rec) ∈ c4S.md.prospekte ∧
    c4Rec.info.kalenderwoche =
      (extractProspektInfo c4Env "https://new/inlineflyer-neu" "Inlineflyer").kalenderwoche := by
  have h := c4_amended c4S.fs
    (extractProspektInfo c4Env "https://new/inlineflyer-neu" "Inlineflyer")
    c4S.md.prospekte "md5#https://old/i.pdf" c4Rec (by decide)
  exact ⟨h.1, h.2.2.2.2.2.2.1 (Or.inr (by decide))⟩

/-- Witness for `c6_amended`: a garden brochure whose URL also carries a
week token keeps the week as periodKey but is typed Garten-Broschüre. -/
theorem c6_amended_witness :
    (extractProspektInfo (mkClock 2024) "https://x/garten-kw7" "T").kalenderwoche = "7" ∧
    (extractProspektInfo (mkClock 2024) "https://x/garten-kw7" "T").typ =
      "Garten-Broschüre" := by
  have h := c6_amended (mkClock 2024) "https://x/garten-kw7" "T" "7" (by decide)
  exact ⟨h.1, h.2.trans (by decide)⟩

/-- Claim C10, counterexample: the claim's stated hypotheses hold (normal
mode, a file at the computed target path, no record owning that path), yet
`download_pdf` returns a different, already-archived path via the
reference fast path and registers nothing — the hypotheses do not suffice
for adoption when the URL hash is already known with a live file. -/
theorem c10_counterexample :
    downloadPdf c10Env cfgOut c10S "https://h/x.pdf" "T" "https://h/f" =
      (logMsg c10S "Prospekt bereits vorhanden: /arch/p1.pdf", some "/arch/p1.pdf") ∧
    dlFilepath c10Env cfgOut "https://h/x.pdf" "T" "https://h/f" = "out/Aldi_Sued_x.pdf" ∧
    fsExists c10S.fs "out/Aldi_Sued_x.pdf" = true ∧
    findByFilepath c10S.md.prospekte "out/Aldi_Sued_x.pdf" = none ∧
    (downloadPdf c10Env cfgOut c10S "https://h/x.pdf" "T" "https://h/f").1.md = c10S.md := by
  refine ⟨by decide, by decide, by decide, by decide, by decide⟩

/-- Claim C10 (amended): in normal mode, when additionally the URL's
reference hash is not mapped to a record with an existing file and no
classification-triple match fires, a file at the computed target path
owned by no record is adopted: its bytes are hashed, a record and a
content-hash entry are registered under the URL's reference hash, the
index is persisted, and that path is returned; the registered hash is that
of the on-disk bytes, and the result does not depend on the fetch
collaborator at all. -/
theorem c10_amended (env : Env) (cfg : Cfg) (s : S) (u t f db : String)
    (hforce : cfg.force = false)
    (href : ∀ r, dictGet s.md.prospekte (md5Hex u) = some r →
      fsExists s.fs r.filepath = false)
    (htrip : findTripleMatch s.fs (extractProspektInfo env f t) s.md.prospekte = none)
    (hdisk : dictGet s.fs (dlFilepath env cfg u t f) = some (.full (.raw db)))
    (hnofp : findByFilepath s.md.prospekte (dlFilepath env cfg u t f) = none) :
    downloadPdf env cfg s u t f =
      (logMsg (saveMetadata env cfg { s with md := adoptMd env cfg s.md u t f db })
        ("Prospekt bereits vorhanden (Metadaten aktualisiert): " ++
          dlFilepath env cfg u t f),
       some (dlFilepath env cfg u t f)) ∧
    (adoptRecord env cfg u t f db).hash = contentSha (.raw db) ∧
    (∀ g, downloadPdf { env with httpGet := g } cfg s u t f =
      downloadPdf env cfg s u t f) := by
  refine ⟨downloadPdf_adopt env cfg s u t f db hforce href htrip hdisk hnofp, rfl, ?_⟩
  intro g
  rw [downloadPdf_adopt { env with httpGet := g } cfg s u t f db hforce href htrip
      hdisk hnofp,
    downloadPdf_adopt env cfg s u t f db hforce href htrip hdisk hnofp]
  rfl

/-- Claim C8: archiving the same `(url, title)` twice from a fresh archive
(normal mode, fetch yielding the same bytes) returns the same `filePath`
both times and leaves exactly one Archive Record; the second run changes
neither the index nor the filesystem. -/
theorem c8_idempotent (env : Env) (cfg : Cfg) (u t f b : String)
    (hforce : cfg.force = false) (hrok : env.renameOk = true)
    (hget : env.httpGet u = some (200, b))
    (hpath : dlFilepath env cfg u t f ≠ metadataPath cfg) :
    (downloadPdf env cfg emptyS u t f).2 = some (dlFilepath env cfg u t f) ∧
    (downloadPdf env cfg (downloadPdf env cfg emptyS u t f).1 u t f).2 =
      (downloadPdf env cfg emptyS u t f).2 ∧
    (downloadPdf env cfg (downloadPdf env cfg emptyS u t f).1 u t f).1.md.prospekte =
      [(md5Hex u, commitRecord env cfg u t f b)] ∧
    (downloadPdf env cfg (downloadPdf env cfg emptyS u t f).1 u t f).1.md =
      (downloadPdf env cfg emptyS u t f).1.md ∧
    (downloadPdf env cfg (downloadPdf env cfg emptyS u t f).1 u t f).1.fs =
      (downloadPdf env cfg emptyS u t f).1.fs := by
  have h1 := downloadPdf_commit env cfg emptyS u t f b hforce
    (fun r hr => by simp [emptyS, emptyMetadata, dictGet] at hr)
    (by simp [emptyS, emptyMetadata, findTripleMatch])
    (by simp [emptyS, dictGet])
    hget
    (by simp [emptyS, emptyMetadata, dictGet])
    hrok
  rw [h1]
  have hne := Ne.symm hpath
  unfold downloadPdf
  simp only [hforce, Bool.false_eq_true, if_false, commitMd, commitRecord, emptyS,
    emptyMetadata]
  simp [dictGet_dictSet, dictGet, fsExists, hne, hpath, logMsg, commitMd,
    commitRecord, dictSet, dictDel]


/-- Witness for `c10_amended` at the concrete adoption state. -/
theorem c10_amended_witness :
    (downloadPdf c10Env cfgOut w10S "https://h/x.pdf" "T" "https://h/f").2 =
      some "out/Aldi_Sued_x.pdf" ∧
    dictGet (downloadPdf c10Env cfgOut w10S "https://h/x.pdf" "T"
        "https://h/f").1.md.prospekte (md5Hex "https://h/x.pdf") =
      some (adoptRecord c10Env cfgOut "https://h/x.pdf" "T" "https://h/f" "DISK") := by
  have h := (c10_amended c10Env cfgOut w10S "https://h/x.pdf" "T" "https://h/f" "DISK"
    rfl (fun r hr => by simp [w10S, emptyMetadata, dictGet] at hr)
    (by decide) (by decide) (by decide)).1
  rw [h]
  exact ⟨by decide, by decide⟩

/-- Witness for `c8_idempotent` at the concrete weekly-offer flyer. -/
theorem c8_idempotent_witness :
    (downloadPdf cwEnv cfgOut emptyS "https://p/a.pdf" "KW10 Angebote"
        "https://p/kw10").2 = some "out/Aldi_Sued_Wochenangebot_KW10_2025.pdf" ∧
    (downloadPdf cwEnv cfgOut (downloadPdf cwEnv cfgOut emptyS "https://p/a.pdf"
        "KW10 Angebote" "https://p/kw10").1 "https://p/a.pdf" "KW10 Angebote"
        "https://p/kw10").1.md.prospekte.length = 1 := by
  have h := c8_idempotent cwEnv cfgOut "https://p/a.pdf" "KW10 Angebote"
    "https://p/kw10" "B1" rfl rfl rfl (by decide)
  refine ⟨h.1.trans (by decide), ?_⟩
  rw [h.2.2.1]
  rfl

/-- After one novel commit, archiving any second URL that fetches the same
bytes aliases into the existing record, whichever deduplication path fires
(classification triple, same computed filename, or content hash). -/
theorem second_call_aliases (env : Env) (cfg : Cfg) (s1 : S)
    (B tB fB b kA : String) (recA : Record)
    (hforce : cfg.force = false)
    (hkB : kA ≠ md5Hex B)
    (hmdp : s1.md.prospekte = [(kA, recA)])
    (hfh : s1.md.file_hashes = [(contentSha (.raw b), kA)])
    (hexa : fsExists s1.fs recA.filepath = true)
    (hgetB : env.httpGet B = some (200, b))
    (hfpB : dlFilepath env cfg B tB fB ≠ recA.filepath →
      fsExists s1.fs (dlFilepath env cfg B tB fB) = false) :
    ∃ S2 : S, downloadPdf env cfg s1 B tB fB = (S2, some recA.filepath) ∧
      S2.md.prospekte = [(kA, recA), (md5Hex B, recA)] := by
  rw [downloadPdf_fastMiss env cfg s1 B tB fB hforce
    (fun r hr => by rw [hmdp] at hr; simp [dictGet, hkB] at hr)]
  have hkB' : ¬ kA = md5Hex B := hkB
  have hassemble : ∀ (hr2 : (downloadPdfSlow env cfg s1 B tB fB (md5Hex B)).2 =
        some recA.filepath)
      (hr3 : (downloadPdfSlow env cfg s1 B tB fB (md5Hex B)).1.md.prospekte =
        [(kA, recA), (md5Hex B, recA)]),
      ∃ S2 : S, downloadPdfSlow env cfg s1 B tB fB (md5Hex B) =
        (S2, some recA.filepath) ∧
        S2.md.prospekte = [(kA, recA), (md5Hex B, recA)] :=
    fun hr2 hr3 => ⟨(downloadPdfSlow env cfg s1 B tB fB (md5Hex B)).1,
      by rw [← hr2], hr3⟩
  by_cases htb : tripleBranch (extractProspektInfo env fB tB) recA = true
  · refine hassemble ?_ ?_ <;>
      simp [downloadPdfSlow, hforce, hmdp, findTripleMatch, htb, hexa,
        saveMetadata, writeFile, emit, fsExec, logMsg, dictSet, hkB']
  · have htb' : tripleBranch (extractProspektInfo env fB tB) recA = false :=
      Bool.eq_false_iff.mpr htb
    by_cases hfb : dlFilepath env cfg B tB fB = recA.filepath
    · have hfb' : pathJoin cfg.outputDir
          (computeFilename env B tB (extractProspektInfo env fB tB)).2 =
          recA.filepath := by simpa [dlFilepath] using hfb
      refine hassemble ?_ ?_ <;>
        simp [downloadPdfSlow, hforce, hmdp, findTripleMatch, htb', hfb', hexa,
          findByFilepath, hkB', saveMetadata, writeFile, emit, fsExec, logMsg,
          dictSet]
    · have hnex : fsExists s1.fs
          (pathJoin cfg.outputDir
            (computeFilename env B tB (extractProspektInfo env fB tB)).2) = false := by
        have := hfpB hfb
        simpa [dlFilepath] using this
      have hex2 : fsExists
          (dictSet (dictSet s1.fs
            (pathJoin cfg.outputDir
              (computeFilename env B tB (extractProspektInfo env fB tB)).2 ++ ".tmp")
            FileSt.trunc)
            (pathJoin cfg.outputDir
              (computeFilename env B tB (extractProspektInfo env fB tB)).2 ++ ".tmp")
            (.full (.raw b))) recA.filepath = true := by
        by_cases he : (pathJoin cfg.outputDir
            (computeFilename env B tB (extractProspektInfo env fB tB)).2 ++ ".tmp") =
            recA.filepath
        · simp [fsExists, dictGet_dictSet, he]
        · simp only [fsExists, dictGet_dictSet, if_neg he]
          exact hexa
      refine hassemble ?_ ?_ <;>
        simp [downloadPdfSlow, hforce, hmdp, hfh, findTripleMatch, htb', hnex,
          hgetB, contentDup, writeFile, emit, fsExec, hex2, logMsg, saveMetadata,
          dictSet, dictGet, hkB']

/-- Claim C5: archiving two different URLs that resolve to byte-identical
content, starting from a fresh archive in normal mode, makes both
reference lookups yield one and the same record (hence the same
`filePath`), and both reference hashes appear among that record's
reference hashes. -/
theorem c5_alias_convergence (env : Env) (cfg : Cfg) (A tA fA B tB fB b : String)
    (hforce : cfg.force = false) (hrok : env.renameOk = true)
    (hAB : A ≠ B)
    (hgetA : env.httpGet A = some (200, b))
    (hgetB : env.httpGet B = some (200, b))
    (hApath : dlFilepath env cfg A tA fA ≠ metadataPath cfg)
    (hBpath : dlFilepath env cfg B tB fB ≠ metadataPath cfg) :
    ∃ rec : Record,
      (downloadPdf env cfg emptyS A tA fA).2 = some rec.filepath ∧
      (downloadPdf env cfg (downloadPdf env cfg emptyS A tA fA).1 B tB fB).2 =
        some rec.filepath ∧
      dictGet (downloadPdf env cfg (downloadPdf env cfg emptyS A tA fA).1
        B tB fB).1.md.prospekte (md5Hex A) = some rec ∧
      dictGet (downloadPdf env cfg (downloadPdf env cfg emptyS A tA fA).1
        B tB fB).1.md.prospekte (md5Hex B) = some rec ∧
      md5Hex A ∈ referenceHashes (downloadPdf env cfg (downloadPdf env cfg emptyS
        A tA fA).1 B tB fB).1.md rec ∧
      md5Hex B ∈ referenceHashes (downloadPdf env cfg (downloadPdf env cfg emptyS
        A tA fA).1 B tB fB).1.md rec := by
  have hAB' : md5Hex A ≠ md5Hex B := fun h => hAB (md5Hex_inj h)
  have h1 := downloadPdf_commit env cfg emptyS A tA fA b hforce
    (fun r hr => by simp [emptyS, emptyMetadata, dictGet] at hr)
    (by simp [emptyS, emptyMetadata, findTripleMatch])
    (by simp [emptyS, dictGet])
    hgetA
    (by simp [emptyS, emptyMetadata, dictGet])
    hrok
  have hmdp : (downloadPdf env cfg emptyS A tA fA).1.md.prospekte =
      [(md5Hex A, commitRecord env cfg A tA fA b)] := by
    rw [h1]
    simp [commitMd, dictSet, emptyS, emptyMetadata]
  have hfh : (downloadPdf env cfg emptyS A tA fA).1.md.file_hashes =
      [(contentSha (.raw b), md5Hex A)] := by
    rw [h1]
    simp [commitMd, dictSet, emptyS, emptyMetadata]
  have hexa : fsExists (downloadPdf env cfg emptyS A tA fA).1.fs
      (commitRecord env cfg A tA fA b).filepath = true := by
    rw [h1]
    simp [commitRecord, fsExists, dictGet_dictSet, dictDel, emptyS,
      Ne.symm hApath]
  have hfpB : dlFilepath env cfg B tB fB ≠ (commitRecord env cfg A tA fA b).filepath →
      fsExists (downloadPdf env cfg emptyS A tA fA).1.fs
        (dlFilepath env cfg B tB fB) = false := by
    intro hne
    have hne2 : ¬ dlFilepath env cfg A tA fA = dlFilepath env cfg B tB fB :=
      fun h => hne h.symm
    rw [h1]
    simp [fsExists, dictGet_dictSet, dictDel, dictGet, emptyS, Ne.symm hBpath,
      hne2]
  obtain ⟨S2, hcall, hpros⟩ := second_call_aliases env cfg
    (downloadPdf env cfg emptyS A tA fA).1 B tB fB b (md5Hex A)
    (commitRecord env cfg A tA fA b) hforce hAB' hmdp hfh hexa hgetB hfpB
  refine ⟨commitRecord env cfg A tA fA b, ?_, ?_, ?_, ?_, ?_, ?_⟩
  · rw [h1]
    rfl
  · rw [hcall]
  · rw [hcall]
    rw [hpros]
    simp [dictGet]
  · rw [hcall]
    rw [hpros]
    simp [dictGet, hAB']
  · rw [hcall]
    exact mem_referenceHashes (by rw [hpros]; simp [dictGet])
  · rw [hcall]
    exact mem_referenceHashes (by rw [hpros]; simp [dictGet, hAB'])


/-- Witness for `c5_alias_convergence` at two concrete URLs fetching the
same bytes. -/
theorem c5_alias_convergence_witness :
    ∃ rec : Record,
      (downloadPdf cwEnv cfgOut emptyS "https://p/a.pdf" "KW10 Angebote"
        "https://p/kw10").2 = some rec.filepath ∧
      (downloadPdf cwEnv cfgOut (downloadPdf cwEnv cfgOut emptyS "https://p/a.pdf"
        "KW10 Angebote" "https://p/kw10").1 "https://p/b.pdf" "Angebote neu"
        "https://p/neu").2 = some rec.filepath ∧
      dictGet (downloadPdf cwEnv cfgOut (downloadPdf cwEnv cfgOut emptyS
        "https://p/a.pdf" "KW10 Angebote" "https://p/kw10").1 "https://p/b.pdf"
        "Angebote neu" "https://p/neu").1.md.prospekte
        (md5Hex "https://p/a.pdf") = some rec ∧
      dictGet (downloadPdf cwEnv cfgOut (downloadPdf cwEnv cfgOut emptyS
        "https://p/a.pdf" "KW10 Angebote" "https://p/kw10").1 "https://p/b.pdf"
        "Angebote neu" "https://p/neu").1.md.prospekte
        (md5Hex "https://p/b.pdf") = some rec ∧
      md5Hex "https://p/a.pdf" ∈ referenceHashes (downloadPdf cwEnv cfgOut
        (downloadPdf cwEnv cfgOut emptyS "https://p/a.pdf" "KW10 Angebote"
        "https://p/kw10").1 "https://p/b.pdf" "Angebote neu"
        "https://p/neu").1.md rec ∧
      md5Hex "https://p/b.pdf" ∈ referenceHashes (downloadPdf cwEnv cfgOut
        (downloadPdf cwEnv cfgOut emptyS "https://p/a.pdf" "KW10 Angebote"
        "https://p/kw10").1 "https://p/b.pdf" "Angebote neu"
        "https://p/neu").1.md rec :=
  c5_alias_convergence cwEnv cfgOut "https://p/a.pdf" "KW10 Angebote"
    "https://p/kw10" "https://p/b.pdf" "Angebote neu" "https://p/neu" "B1"
    rfl rfl (by decide) rfl rfl (by decide) (by decide)

/-- Claim C1, counterexample: in force mode with a file already occupying
the timestamp-suffixed target, the commit removes the pre-existing target
file *before* the rename (the trace's third action is the remove, the
fourth the rename); interrupting after three actions — strictly before the
rename into place — leaves the target path empty although it held a file,
so the final target path is not left untouched. -/
theorem c1_counterexample :
    (downloadPdf c1Env cfgForce c1S "https://h/p.pdf" "T" "https://h/f").1.acts.take 4 =
      [.truncate "out/Aldi_Sued_p_TS1.pdf.tmp",
       .writeAll "out/Aldi_Sued_p_TS1.pdf.tmp" (.raw "NEW"),
       .remove "out/Aldi_Sued_p_TS1.pdf",
       .rename "out/Aldi_Sued_p_TS1.pdf.tmp" "out/Aldi_Sued_p_TS1.pdf"] ∧
    dictGet c1S.fs "out/Aldi_Sued_p_TS1.pdf" = some (.full (.raw "OLD2")) ∧
    dictGet (applyActs ((downloadPdf c1Env cfgForce c1S "https://h/p.pdf" "T"
      "https://h/f").1.acts.take 3) c1S.fs) "out/Aldi_Sued_p_TS1.pdf" = none := by
  refine ⟨by decide, by decide, by decide⟩

/-- Claim C1 (amended): for a flyer that reaches the commit in normal
mode (no reference, triple or content-hash hit, nothing at the target
path, a 200 fetch), the commit trace renames at index 2, and interrupting
after any prefix of at most two actions leaves both the target path and
the persisted metadata file exactly as they were — the temp file is the
only thing written, so no Archive Record exists.  If the rename itself
fails, the call returns `none` with the index, target path, and metadata
file untouched, the failure is logged, and the run loop continues with the
remaining flyers.  (In force mode with a file already at the possibly
timestamp-suffixed target this guarantee fails, as the counterexample
shows: that file is removed before the rename.) -/
theorem c1_amended (env : Env) (cfg : Cfg) (s : S) (u t f b : String)
    (hforce : cfg.force = false)
    (href : ∀ r, dictGet s.md.prospekte (md5Hex u) = some r →
      fsExists s.fs r.filepath = false)
    (htrip : findTripleMatch s.fs (extractProspektInfo env f t) s.md.prospekte = none)
    (hfp : dictGet s.fs (dlFilepath env cfg u t f) = none)
    (hget : env.httpGet u = some (200, b))
    (hdup : dictGet s.md.file_hashes (contentSha (.raw b)) = none)
    (hmdp : metadataPath cfg ≠ dlFilepath env cfg u t f ++ ".tmp") :
    ((downloadPdf { env with renameOk := true } cfg s u t f).1.acts =
        s.acts ++ commitActs env cfg s.md u t f b) ∧
    ((commitActs env cfg s.md u t f b).get? 2 =
        some (.rename (dlFilepath env cfg u t f ++ ".tmp")
          (dlFilepath env cfg u t f))) ∧
    (∀ k, k ≤ 2 →
      dictGet (applyActs ((commitActs env cfg s.md u t f b).take k) s.fs)
          (dlFilepath env cfg u t f) = dictGet s.fs (dlFilepath env cfg u t f) ∧
      dictGet (applyActs ((commitActs env cfg s.md u t f b).take k) s.fs)
          (metadataPath cfg) = dictGet s.fs (metadataPath cfg)) ∧
    ((downloadPdf { env with renameOk := false } cfg s u t f).2 = none) ∧
    ((downloadPdf { env with renameOk := false } cfg s u t f).1.md = s.md) ∧
    (dictGet (downloadPdf { env with renameOk := false } cfg s u t f).1.fs
        (dlFilepath env cfg u t f) = dictGet s.fs (dlFilepath env cfg u t f)) ∧
    (dictGet (downloadPdf { env with renameOk := false } cfg s u t f).1.fs
        (metadataPath cfg) = dictGet s.fs (metadataPath cfg)) ∧
    ((downloadPdf { env with renameOk := false } cfg s u t f).1.log =
        s.log ++ ["Fehler beim Herunterladen des PDFs"]) ∧
    (∀ rest, processFlyers { env with renameOk := false } cfg s ((u, t, f) :: rest) =
      processFlyers { env with renameOk := false } cfg
        (downloadPdf { env with renameOk := false } cfg s u t f).1 rest) := by
  have hne1 := tmp_ne (dlFilepath env cfg u t f)
  have hconv : ∀ x : Bool, dlFilepath { env with renameOk := x } cfg u t f =
      dlFilepath env cfg u t f := fun _ => rfl
  have hmdp' : ¬ (dlFilepath env cfg u t f ++ ".tmp" = metadataPath cfg) :=
    fun h => hmdp h.symm
  have hT := downloadPdf_commit { env with renameOk := true } cfg s u t f b
    hforce href htrip hfp hget hdup rfl
  have hF := downloadPdf_renameFail { env with renameOk := false } cfg s u t f b
    hforce href htrip hfp hget hdup rfl
  refine ⟨?_, rfl, ?_, ?_, ?_, ?_, ?_, ?_, ?_⟩
  · rw [hT]
    rfl
  · intro k hk
    interval_cases k <;>
      constructor <;>
        simp [commitActs, applyActs, fsExec, dictGet_dictSet, hne1, hmdp']
  · rw [hF]
  · rw [hF]
  · rw [hF]
    simp [dictGet_dictSet, hconv, hne1]
  · rw [hF]
    simp [dictGet_dictSet, hconv, hmdp']
  · rw [hF]
  · intro rest
    rw [processFlyers, hF]


/-- Witness for `c1_amended` at a concrete flyer from a fresh archive. -/
theorem c1_amended_witness :
    (downloadPdf { cwEnv with renameOk := false } cfgOut emptyS "https://p/a.pdf"
      "KW10 Angebote" "https://p/kw10").2 = none ∧
    dictGet (applyActs ((commitActs cwEnv cfgOut emptyS.md "https://p/a.pdf"
      "KW10 Angebote" "https://p/kw10" "B1").take 2) emptyS.fs)
      (dlFilepath cwEnv cfgOut "https://p/a.pdf" "KW10 Angebote" "https://p/kw10") =
      dictGet emptyS.fs
        (dlFilepath cwEnv cfgOut "https://p/a.pdf" "KW10 Angebote" "https://p/kw10") := by
  have h := c1_amended cwEnv cfgOut emptyS "https://p/a.pdf" "KW10 Angebote"
    "https://p/kw10" "B1" rfl
    (fun r hr => by simp [emptyS, emptyMetadata, dictGet] at hr)
    (by simp [emptyS, emptyMetadata, findTripleMatch])
    (by simp [emptyS, dictGet])
    rfl
    (by simp [emptyS, emptyMetadata, dictGet])
    (by decide)
  exact ⟨h.2.2.2.1, (h.2.2.1 2 (by decide)).1⟩

end Aldi
